import Mathlib

/-!
Shallow embedding of the Capstone-Python energy pipeline (`src/Main.py`).

Modelling conventions:
* A pandas timestamp is a `Nat`: minutes since the epoch, naive local time
  (`1970-01-01 00:00` is 0; epoch day 0 is a Thursday).
* A kwh value is a `Rat` (IEEE doubles are modelled by exact rationals, so
  "within floating-point tolerance" becomes exact equality).
* A raw CSV cell that is missing, or that `pd.to_datetime(..., errors="coerce")`
  turns into `NaT`, is `none`.
* A `DataFrame` is a column-name list plus a row list; the four pipeline
  columns are fields of `Row`, extra source columns are tracked by name only
  (their values never influence the pipeline).
* `DataFrame.sort_values` defaults to numpy quicksort, which fixes some sorted
  permutation of the input with no stability guarantee; the embedding fixes a
  concrete sorted permutation (insertion sort).  No development below relies
  on the order of rows with equal timestamps.
-/

set_option autoImplicit false

namespace Capstone

/-- One row of the Merged Dataset: `{timestamp, kwh, building, month}`. -/
structure Row where
  timestamp : Nat
  kwh : Rat
  building : String
  month : String
deriving DecidableEq, Repr

/-- One row of a raw CSV source, as read by `pd.read_csv`.  `timestamp` is the
cell after `pd.to_datetime(..., errors="coerce")` (`none` = missing/`NaT`),
`kwh` is `none` when the cell is missing (`NaN`).  The `building`/`month`
cells are meaningful only when the source has those columns. -/
structure RawRow where
  timestamp : Option Nat
  kwh : Option Rat
  building : String
  month : String
deriving DecidableEq, Repr

/-- One raw CSV file: its filename stem, whether `pd.read_csv` succeeds, its
column list, and its rows. -/
structure RawSource where
  stem : String
  readable : Bool
  cols : List String
  rows : List RawRow
deriving DecidableEq, Repr

/-- A pandas DataFrame restricted to what the pipeline inspects: the column
list and the pipeline-relevant row contents. -/
structure DataFrame where
  cols : List String
  rows : List Row
deriving DecidableEq, Repr

/-! ### String helpers (Python `str.split("_")` and `str.capitalize()`) -/

/-- Python `str.split("_")` on a list of characters: always returns at least
one (possibly empty) segment. -/
def splitCharList : List Char → List (List Char)
  | [] => [[]]
  | c :: rest =>
      let r := splitCharList rest
      if c = '_' then [] :: r
      else
        match r with
        | [] => [[c]]
        | h :: t => (c :: h) :: t

/-- Python `stem.split("_")`. -/
def splitUnderscore (s : String) : List String :=
  (splitCharList s.data).map (fun cs => String.mk cs)

/-- Python `str.capitalize()`: first character upper-cased, the rest
lower-cased (ASCII suffices for the identifiers in play). -/
def pyCapitalize (s : String) : String :=
  match s.data with
  | [] => ""
  | c :: cs => String.mk (c.toUpper :: cs.map Char.toLower)

/-- `file.stem.split("_")[0].capitalize()` (Main.py line 73). -/
def inferredBuilding (stem : String) : String :=
  pyCapitalize (((splitUnderscore stem).head?).getD "")

/-- `file.stem.split("_")[-1]` (Main.py line 75), used verbatim. -/
def inferredMonth (stem : String) : String :=
  ((splitUnderscore stem).getLast?).getD ""

/-! ### Record Normalizer and Ingestion Merger (`ingest_data`, lines 55-84) -/

/-- The building value of a normalized row: the source's own `building` cell
when that column exists, else the value inferred from the filename stem
(lines 72-73). -/
def rowBuilding (s : RawSource) (r : RawRow) : String :=
  if "building" ∈ s.cols then r.building else inferredBuilding s.stem

/-- The month value of a normalized row (lines 74-75). -/
def rowMonth (s : RawSource) (r : RawRow) : String :=
  if "month" ∈ s.cols then r.month else inferredMonth s.stem

/-- Columns of a normalized frame: the source's columns, with `building` and
`month` appended when absent (pandas appends assigned columns at the end). -/
def normCols (s : RawSource) : List String :=
  s.cols ++ (if "building" ∈ s.cols then [] else ["building"])
    ++ (if "month" ∈ s.cols then [] else ["month"])

/-- Rows of a normalized frame: coerce the timestamp, drop rows with a missing
timestamp or kwh (`dropna(subset=["timestamp", "kwh"])`, lines 69-70), and
populate `building`/`month`. -/
def normRows (s : RawSource) : List Row :=
  s.rows.filterMap (fun r =>
    match r.timestamp, r.kwh with
    | some t, some k =>
        some { timestamp := t, kwh := k,
               building := rowBuilding s r, month := rowMonth s r }
    | _, _ => none)

/-- The per-source body of `ingest_data`: skip the source when it is
unreadable or lacks a `timestamp`/`kwh` column; otherwise normalize it. -/
def normalizeSource (s : RawSource) : Option DataFrame :=
  if s.readable = false then none
  else if "timestamp" ∉ s.cols ∨ "kwh" ∉ s.cols then none
  else some { cols := normCols s, rows := normRows s }

/-- Column union of `pd.concat` (default `sort=False`): columns in order of
first appearance across the frames. -/
def concatCols (frames : List DataFrame) : List String :=
  frames.foldl (fun acc f => acc ++ f.cols.filter (fun c => !(acc.contains c))) []

/-- `combined.sort_values("timestamp")`: some permutation of the rows sorted
non-decreasing by timestamp.  pandas defaults to quicksort (unstable); the
embedding fixes insertion sort as the concrete sorted permutation. -/
def sortByTimestamp (rows : List Row) : List Row :=
  List.insertionSort (fun a b => a.timestamp ≤ b.timestamp) rows

/-- The tail of `ingest_data` (lines 79-84): `if not frames: return
pd.DataFrame(columns=[...])`, else `pd.concat` and `sort_values("timestamp")`. -/
def mergeFrames (frames : List DataFrame) : DataFrame :=
  if frames.isEmpty then
    { cols := ["timestamp", "kwh", "building", "month"], rows := [] }
  else
    { cols := concatCols frames,
      rows := sortByTimestamp ((frames.map (fun f => f.rows)).flatten) }

/-- `ingest_data` (Main.py lines 55-84) over an explicit source list: normalize
each source (skips contribute no frame), then merge the surviving frames. -/
def ingest_data (sources : List RawSource) : DataFrame :=
  mergeFrames (sources.filterMap normalizeSource)

/-! ### Domain Model (`MeterReading`, `Building`, `BuildingManager`, lines 8-52) -/

/-- `MeterReading`: one (timestamp, kwh) observation. -/
structure MeterReading where
  timestamp : Nat
  kwh : Rat
deriving DecidableEq, Repr

/-- `Building`: a name plus its accumulated readings. -/
structure Building where
  name : String
  meter_readings : List MeterReading
deriving DecidableEq, Repr

/-- `Building.calculate_total_consumption` (line 22). -/
def Building.calculate_total_consumption (b : Building) : Rat :=
  (b.meter_readings.map (fun r => r.kwh)).sum

/-- `BuildingManager`: the insertion-ordered dict `name -> Building`,
modelled as a list of buildings with their insertion order. -/
structure BuildingManager where
  buildings : List Building
deriving DecidableEq, Repr

/-- `get_or_create_building` + `add_reading` as used by `load_from_dataframe`:
append the reading to the building named `name`, creating (and registering at
the end, as a Python dict does) the building on first reference. -/
def addReadingToBuildings (bs : List Building) (name : String) (r : MeterReading) :
    List Building :=
  match bs with
  | [] => [{ name := name, meter_readings := [r] }]
  | b :: rest =>
      if b.name = name then
        { b with meter_readings := b.meter_readings ++ [r] } :: rest
      else
        b :: addReadingToBuildings rest name r

/-- `BuildingManager.load_from_dataframe` (lines 39-44): iterate the rows in
order, adding each reading to its building. -/
def BuildingManager.load_from_dataframe (m : BuildingManager) (df : List Row) :
    BuildingManager :=
  { buildings :=
      df.foldl
        (fun bs r => addReadingToBuildings bs r.building
          { timestamp := r.timestamp, kwh := r.kwh })
        m.buildings }

/-- `BuildingManager.campus_total_consumption` (lines 46-47). -/
def BuildingManager.campus_total_consumption (m : BuildingManager) : Rat :=
  (m.buildings.map (fun b => b.calculate_total_consumption)).sum

/-- Python `max(iterable, key=calculate_total_consumption)`: fold that
replaces the running best only on a strict increase, so the first element
among ties wins. -/
def pyMax (b : Building) (l : List Building) : Building :=
  l.foldl
    (fun best c =>
      if best.calculate_total_consumption < c.calculate_total_consumption
      then c else best)
    b

/-- `BuildingManager.highest_consuming_building` (lines 49-52): `None` when
there are no buildings, else Python `max(..., key=...)`. -/
def BuildingManager.highest_consuming_building (m : BuildingManager) :
    Option Building :=
  match m.buildings with
  | [] => none
  | b :: rest => some (pyMax b rest)

/-! ### Aggregation Engine (lines 87-106) -/

/-- `pd.to_datetime` applied to an already-parsed instant: the identity. -/
def to_datetime (t : Nat) : Nat := t

/-- `df["timestamp"] = pd.to_datetime(df["timestamp"])` over a whole frame. -/
def coerceTimestamps (df : List Row) : List Row :=
  df.map (fun r => { r with timestamp := to_datetime r.timestamp })

/-- Calendar day of a timestamp (minutes since epoch): `resample("D")`
buckets by this value. -/
def dayOf (t : Nat) : Nat := t / 1440

/-- `resample("W")` bucket label of a calendar day: the Sunday ending its
week (epoch day 0 is a Thursday, so a day `d` is a Sunday iff `d % 7 = 3`). -/
def weekEnd (d : Nat) : Nat := d + (3 + 7 - d % 7) % 7

/-- Earliest calendar day of a non-empty frame `r :: rs` (start of the
`resample` index range). -/
def minDayOf (r : Row) (rs : List Row) : Nat :=
  rs.foldl (fun m x => Nat.min m (dayOf x.timestamp)) (dayOf r.timestamp)

/-- Latest calendar day of a non-empty frame `r :: rs` (end of the
`resample` index range). -/
def maxDayOf (r : Row) (rs : List Row) : Nat :=
  rs.foldl (fun m x => Nat.max m (dayOf x.timestamp)) (dayOf r.timestamp)

/-- `calculate_daily_totals` (lines 87-92): copy, coerce timestamps, index by
timestamp, `resample("D")["kwh"].sum()`.  On a non-empty frame the buckets run
contiguously from the earliest to the latest day present (empty days get sum
0); on an empty frame the result is empty. -/
def calculate_daily_totals (df0 : List Row) : List (Nat × Rat) :=
  match coerceTimestamps df0 with
  | [] => []
  | r :: rs =>
      (List.range' (minDayOf r rs) (maxDayOf r rs + 1 - minDayOf r rs)).map (fun d =>
        (d, (((r :: rs).filter (fun x => dayOf x.timestamp = d)).map
              (fun x => x.kwh)).sum))

/-- `calculate_weekly_aggregates` (lines 95-100): `resample("W")["kwh"].agg
(["sum","mean"])`.  Buckets are week-ending-Sunday labels from the first to
the last week present, step 7.  A week with no rows has sum 0; pandas reports
its mean as `NaN`, represented here by `0/0 = 0` (no claim inspects it). -/
def calculate_weekly_aggregates (df0 : List Row) : List (Nat × Rat × Rat) :=
  match coerceTimestamps df0 with
  | [] => []
  | r :: rs =>
      (List.range' (weekEnd (minDayOf r rs))
          ((weekEnd (maxDayOf r rs) - weekEnd (minDayOf r rs)) / 7 + 1) 7).map (fun w =>
        let vals := (((r :: rs).filter (fun x => weekEnd (dayOf x.timestamp) = w)).map
          (fun x => x.kwh))
        (w, vals.sum, vals.sum / (vals.length : Rat)))

/-- One row of the Building Summary view: `{building, mean, min, max, total}`
(the `sum` aggregate is renamed to `total`, line 105). -/
structure SummaryRow where
  building : String
  mean : Rat
  min : Rat
  max : Rat
  total : Rat
deriving DecidableEq, Repr

/-- Minimum of a kwh list (groups are non-empty when formed by `groupby`). -/
def listMin : List Rat → Rat
  | [] => 0
  | x :: xs => xs.foldl Min.min x

/-- Maximum of a kwh list. -/
def listMax : List Rat → Rat
  | [] => 0
  | x :: xs => xs.foldl Max.max x

/-- Group keys of `df.groupby("building")`: the distinct building names,
sorted ascending (pandas `groupby` defaults to `sort=True`). -/
def groupKeys (df : List Row) : List String :=
  List.insertionSort (fun a b => a ≤ b) (df.map (fun r => r.building)).dedup

/-- `building_wise_summary` (lines 103-106): group by building, aggregate
mean/min/max/sum of kwh, rename `sum` to `total`. -/
def building_wise_summary (df : List Row) : List SummaryRow :=
  (groupKeys df).map (fun b =>
    let vals := (df.filter (fun r => r.building = b)).map (fun r => r.kwh)
    { building := b,
      mean := vals.sum / (vals.length : Rat),
      min := listMin vals,
      max := listMax vals,
      total := vals.sum })

/-! ### Call protocol: copies and the caller's frame

Each aggregation function receives a reference to the caller's frame.
`calculate_daily_totals` and `calculate_weekly_aggregates` immediately rebind
`df = df.copy()` (lines 88, 96), so every subsequent write hits the copy;
`building_wise_summary` never writes at all.  The `*_run` forms return the
pair (function result, caller's frame as visible after the call). -/

/-- `df.copy()`: a fresh frame with the same rows. -/
def copyFrame (df : List Row) : List Row := df.map (fun r => r)

/-- `calculate_daily_totals` as called: result plus the caller's frame after
the call (untouched, since the body writes only to its copy). -/
def calculate_daily_totals_run (caller : List Row) : List (Nat × Rat) × List Row :=
  (calculate_daily_totals (copyFrame caller), caller)

/-- `calculate_weekly_aggregates` as called. -/
def calculate_weekly_aggregates_run (caller : List Row) :
    List (Nat × Rat × Rat) × List Row :=
  (calculate_weekly_aggregates (copyFrame caller), caller)

/-- `building_wise_summary` as called (it performs no writes). -/
def building_wise_summary_run (caller : List Row) : List SummaryRow × List Row :=
  (building_wise_summary caller, caller)

/-! ### Report Synthesizer (`generate_summary`, lines 145-177) -/

/-- First daily bucket's total (`daily["kwh"].iloc[0]`; the default is never
exercised on the non-empty frames `generate_summary` reaches it with). -/
def firstDailyTotal (df : List Row) : Rat :=
  (((calculate_daily_totals df).head?).getD (0, 0)).2

/-- Last daily bucket's total (`daily["kwh"].iloc[-1]`). -/
def lastDailyTotal (df : List Row) : Rat :=
  (((calculate_daily_totals df).getLast?).getD (0, 0)).2

/-- First weekly bucket's sum (`weekly["sum"].iloc[0]`). -/
def firstWeeklySum (df : List Row) : Rat :=
  (((calculate_weekly_aggregates df).head?).getD (0, 0, 0)).2.1

/-- Last weekly bucket's sum (`weekly["sum"].iloc[-1]`). -/
def lastWeeklySum (df : List Row) : Rat :=
  (((calculate_weekly_aggregates df).getLast?).getD (0, 0, 0)).2.1

/-- Line 164: the daily trend string
(`"increasing" if daily["kwh"].iloc[-1] > daily["kwh"].iloc[0] else ...`). -/
def daily_trend (df : List Row) : String :=
  if lastDailyTotal df > firstDailyTotal df then "increasing"
  else "decreasing or stable"

/-- Line 165: the weekly trend string. -/
def weekly_trend (df : List Row) : String :=
  if lastWeeklySum df > firstWeeklySum df then "increasing"
  else "decreasing or stable"

/-- `df.loc[df["kwh"].idxmax()]` (line 157): the first row attaining the
maximal kwh (`idxmax` keeps the first occurrence). -/
def peakRow (df : List Row) : Row :=
  match df with
  | [] => { timestamp := 0, kwh := 0, building := "", month := "" }
  | r :: rs => rs.foldl (fun best c => if best.kwh < c.kwh then c else best) r

/-- `generate_summary` (lines 145-177), as the list of lines written to
`summary.txt`: the single sentinel line on an empty frame, else the fixed
five-line narrative.  Python's `{:.2f}` fixed-point rendering of the numbers
is not modelled; the numbers appear via `toString`. -/
def generate_summary (df : List Row) (m : BuildingManager) : List String :=
  if df.isEmpty then ["No data available to generate summary."]
  else
    let total_campus := m.campus_total_consumption
    let highest := m.highest_consuming_building
    let highest_name := match highest with
      | some b => b.name
      | none => "N/A"
    let highest_value : Rat := match highest with
      | some b => b.calculate_total_consumption
      | none => 0
    let peak := peakRow df
    ["Total campus consumption: " ++ toString total_campus ++ " kWh",
     "Highest-consuming building: " ++ highest_name ++ " (" ++ toString highest_value ++ " kWh)",
     "Peak load time: " ++ toString peak.timestamp ++ " with " ++ toString peak.kwh ++ " kWh",
     "Daily trend: " ++ daily_trend df,
     "Weekly trend: " ++ weekly_trend df]

/-! ## General list lemmas -/

lemma sum_map_zero {α : Type} (l : List α) : (l.map (fun _ => (0 : Rat))).sum = 0 := by
  induction l with
  | nil => rfl
  | cons a l ih => simp [ih]

lemma sum_map_add {α : Type} (l : List α) (f g : α → Rat) :
    (l.map (fun x => f x + g x)).sum = (l.map f).sum + (l.map g).sum := by
  induction l with
  | nil => simp
  | cons a l ih => simp [ih]; ring

lemma sum_map_ite_eq (a : Nat) (x : Rat) (l : List Nat) (hmem : a ∈ l) (hnd : l.Nodup) :
    (l.map (fun d => if a = d then x else 0)).sum = x := by
  induction l with
  | nil => cases hmem
  | cons d l ih =>
    rcases List.mem_cons.mp hmem with h | h
    · subst h
      have hzero : (l.map (fun d => if a = d then x else 0)).sum = 0 := by
        apply List.sum_eq_zero
        intro y hy
        rcases List.mem_map.mp hy with ⟨d, hd, rfl⟩
        exact if_neg (by rintro rfl; exact (List.nodup_cons.mp hnd).1 hd)
      simp [hzero]
    · have hne : a ≠ d := by rintro rfl; exact (List.nodup_cons.mp hnd).1 h
      simp [if_neg hne, ih h (List.nodup_cons.mp hnd).2]

lemma sum_buckets (key : Row → Nat) (ds : List Nat) (hnd : ds.Nodup) :
    ∀ rows : List Row, (∀ r ∈ rows, key r ∈ ds) →
      (ds.map (fun d =>
        ((rows.filter (fun r => key r = d)).map (fun r => r.kwh)).sum)).sum
        = (rows.map (fun r => r.kwh)).sum := by
  intro rows
  induction rows with
  | nil => intro _; simp [sum_map_zero]
  | cons r rows ih =>
    intro hmem
    have h1 : ∀ d ∈ ds,
        (((r :: rows).filter (fun x => key x = d)).map (fun x => x.kwh)).sum
          = (if key r = d then r.kwh else 0)
            + ((rows.filter (fun x => key x = d)).map (fun x => x.kwh)).sum := by
      intro d _
      by_cases hk : key r = d
      · simp [List.filter_cons, hk]
      · simp [List.filter_cons, hk]
    rw [List.map_congr_left h1, sum_map_add,
        sum_map_ite_eq (key r) r.kwh ds (hmem r (List.mem_cons_self r rows)) hnd,
        ih (fun x hx => hmem x (List.mem_cons_of_mem r hx))]
    simp

lemma foldl_min_le_init {α : Type} (k : α → Nat) :
    ∀ (l : List α) (a : Nat), l.foldl (fun m y => Nat.min m (k y)) a ≤ a := by
  intro l
  induction l with
  | nil => intro a; exact Nat.le_refl a
  | cons c l ih => intro a; exact Nat.le_trans (ih _) (Nat.min_le_left _ _)

lemma foldl_min_le_mem {α : Type} (k : α → Nat) :
    ∀ (l : List α) (a : Nat) (x : α), x ∈ l →
      l.foldl (fun m y => Nat.min m (k y)) a ≤ k x := by
  intro l
  induction l with
  | nil => intro a x hx; cases hx
  | cons c l ih =>
    intro a x hx
    rcases List.mem_cons.mp hx with rfl | hx
    · exact Nat.le_trans (foldl_min_le_init k l _) (Nat.min_le_right _ _)
    · exact ih _ x hx

lemma le_foldl_max_init {α : Type} (k : α → Nat) :
    ∀ (l : List α) (a : Nat), a ≤ l.foldl (fun m y => Nat.max m (k y)) a := by
  intro l
  induction l with
  | nil => intro a; exact Nat.le_refl a
  | cons c l ih => intro a; exact Nat.le_trans (Nat.le_max_left _ _) (ih _)

lemma le_foldl_max_mem {α : Type} (k : α → Nat) :
    ∀ (l : List α) (a : Nat) (x : α), x ∈ l →
      k x ≤ l.foldl (fun m y => Nat.max m (k y)) a := by
  intro l
  induction l with
  | nil => intro a x hx; cases hx
  | cons c l ih =>
    intro a x hx
    rcases List.mem_cons.mp hx with rfl | hx
    · exact Nat.le_trans (Nat.le_max_right _ _) (le_foldl_max_init k l _)
    · exact ih _ x hx

lemma coerceTimestamps_eq (df : List Row) : coerceTimestamps df = df := by
  have h : (fun r : Row => { r with timestamp := to_datetime r.timestamp })
      = fun r : Row => r := by
    funext r; rfl
  rw [coerceTimestamps, h, List.map_id']

/-! ## Domain-model lemmas -/

lemma total_append_reading (b : Building) (r : MeterReading) :
    Building.calculate_total_consumption
        { b with meter_readings := b.meter_readings ++ [r] }
      = b.calculate_total_consumption + r.kwh := by
  simp [Building.calculate_total_consumption]

lemma campusSum_addReading (bs : List Building) (n : String) (r : MeterReading) :
    ((addReadingToBuildings bs n r).map (fun b => b.calculate_total_consumption)).sum
      = (bs.map (fun b => b.calculate_total_consumption)).sum + r.kwh := by
  induction bs with
  | nil => simp [addReadingToBuildings, Building.calculate_total_consumption]
  | cons b bs ih =>
    by_cases hb : b.name = n
    · simp [addReadingToBuildings, hb, Building.calculate_total_consumption]; ring
    · simp [addReadingToBuildings, hb, ih]; ring

lemma campusSum_load (df : List Row) :
    ∀ bs : List Building,
      ((df.foldl
          (fun bs r => addReadingToBuildings bs r.building
            { timestamp := r.timestamp, kwh := r.kwh })
          bs).map (fun b => b.calculate_total_consumption)).sum
        = (bs.map (fun b => b.calculate_total_consumption)).sum
          + (df.map (fun r => r.kwh)).sum := by
  induction df with
  | nil => intro bs; simp
  | cons r df ih =>
    intro bs
    rw [List.foldl_cons, ih, campusSum_addReading]
    simp
    ring

/-! ## Daily-totals partition lemma -/

lemma daily_totals_sum (df : List Row) :
    ((calculate_daily_totals df).map (fun p => p.2)).sum
      = (df.map (fun r => r.kwh)).sum := by
  unfold calculate_daily_totals
  rw [coerceTimestamps_eq]
  cases df with
  | nil => rfl
  | cons r rs =>
    rw [List.map_map]
    have hmem : ∀ x ∈ r :: rs,
        dayOf x.timestamp ∈
          List.range' (minDayOf r rs) (maxDayOf r rs + 1 - minDayOf r rs) := by
      intro x hx
      have hlo : minDayOf r rs ≤ dayOf x.timestamp := by
        rcases List.mem_cons.mp hx with rfl | hx
        · exact foldl_min_le_init (fun y : Row => dayOf y.timestamp) rs _
        · exact foldl_min_le_mem (fun y : Row => dayOf y.timestamp) rs _ x hx
      have hhi : dayOf x.timestamp ≤ maxDayOf r rs := by
        rcases List.mem_cons.mp hx with rfl | hx
        · exact le_foldl_max_init (fun y : Row => dayOf y.timestamp) rs _
        · exact le_foldl_max_mem (fun y : Row => dayOf y.timestamp) rs _ x hx
      rw [List.mem_range']
      exact ⟨dayOf x.timestamp - minDayOf r rs, by omega, by omega⟩
    exact sum_buckets (fun x => dayOf x.timestamp) _ (List.nodup_range' _ _)
      (r :: rs) hmem

/-- **C1.**  The campus total computed through the Domain Model equals the sum
of `kwh` over all rows of the Merged Dataset, which equals the sum of the
`kwh_sum` values over the buckets of the Daily Totals view (exactly, since the
embedding uses exact rational arithmetic in place of IEEE doubles). -/
theorem campus_total_consistency (df : List Row) :
    ((BuildingManager.mk []).load_from_dataframe df).campus_total_consumption
        = (df.map (fun r => r.kwh)).sum
      ∧ ((calculate_daily_totals df).map (fun p => p.2)).sum
        = (df.map (fun r => r.kwh)).sum := by
  constructor
  · have h := campusSum_load df []
    simp only [List.map_nil, List.sum_nil, zero_add] at h
    exact h
  · exact daily_totals_sum df

/-! ## Row-count lemmas (C5) -/

/-- The number of valid rows a raw source contributes: zero when the source is
skipped at source level (unreadable, or lacking a `timestamp`/`kwh` column),
else the number of its rows with a parseable timestamp and a present kwh. -/
def validCount (s : RawSource) : Nat :=
  if s.readable = true ∧ "timestamp" ∈ s.cols ∧ "kwh" ∈ s.cols then
    s.rows.countP (fun r => r.timestamp.isSome && r.kwh.isSome)
  else 0

lemma length_filterMap_pair {β : Type} (g : RawRow → Nat → Rat → β) :
    ∀ rows : List RawRow,
      (rows.filterMap (fun r =>
        match r.timestamp, r.kwh with
        | some t, some k => some (g r t k)
        | _, _ => none)).length
        = rows.countP (fun r => r.timestamp.isSome && r.kwh.isSome) := by
  intro rows
  induction rows with
  | nil => rfl
  | cons r rows ih =>
    rcases ht : r.timestamp with _ | t <;> rcases hk : r.kwh with _ | k <;>
      simp [List.filterMap_cons, List.countP_cons, ht, hk, ih]

lemma validCount_eq_zero_of_none (s : RawSource) (h : normalizeSource s = none) :
    validCount s = 0 := by
  unfold normalizeSource at h
  split_ifs at h with h1 h2
  · simp [validCount, h1]
  · unfold validCount
    rw [if_neg]
    rintro ⟨_, hts, hkwh⟩
    rcases h2 with h2 | h2 <;> exact h2 (by assumption)

lemma rows_length_of_some (s : RawSource) (fr : DataFrame)
    (h : normalizeSource s = some fr) :
    fr.rows.length = s.rows.countP (fun r => r.timestamp.isSome && r.kwh.isSome) := by
  unfold normalizeSource at h
  split_ifs at h with h1 h2
  injection h with h'
  subst h'
  show (normRows s).length = _
  unfold normRows
  exact length_filterMap_pair
    (fun r t k =>
      ({ timestamp := t, kwh := k,
         building := rowBuilding s r, month := rowMonth s r } : Row))
    s.rows

lemma validCount_of_some (s : RawSource) (fr : DataFrame)
    (h : normalizeSource s = some fr) :
    validCount s = s.rows.countP (fun r => r.timestamp.isSome && r.kwh.isSome) := by
  unfold normalizeSource at h
  split_ifs at h with h1 h2
  push_neg at h2
  have hr : s.readable = true := by revert h1; cases s.readable <;> simp
  unfold validCount
  rw [if_pos ⟨hr, h2.1, h2.2⟩]

lemma flatten_length_eq_sum_validCount (sources : List RawSource) :
    (((sources.filterMap normalizeSource).map (fun f => f.rows)).flatten).length
      = (sources.map validCount).sum := by
  induction sources with
  | nil => rfl
  | cons s ss ih =>
    rcases h : normalizeSource s with _ | fr
    · rw [List.filterMap_cons]
      simp only [h]
      rw [List.map_cons, List.sum_cons, validCount_eq_zero_of_none s h, ih]
      omega
    · rw [List.filterMap_cons]
      simp only [h]
      rw [List.map_cons, List.flatten_cons, List.length_append,
          List.map_cons, List.sum_cons, ih,
          rows_length_of_some s fr h, ← validCount_of_some s fr h]

/-- **C5.**  Per-row filtering: the Merged Dataset's row count is the sum, over
all sources, of the number of rows with both a parseable timestamp and a
present kwh (skipped sources contribute zero). -/
theorem merged_rowcount_eq_sum_validCount (sources : List RawSource) :
    (ingest_data sources).rows.length = (sources.map validCount).sum := by
  rw [← flatten_length_eq_sum_validCount sources]
  unfold ingest_data mergeFrames
  by_cases he : (sources.filterMap normalizeSource).isEmpty
  · rw [if_pos he]
    have hnil : sources.filterMap normalizeSource = [] := List.isEmpty_iff.mp he
    simp [hnil]
  · rw [if_neg he]
    exact (List.perm_insertionSort _ _).length_eq

/-! ## Empty-dataset behaviour (C3) -/

/-- A readable source with an extra `note` column whose single row has an
unparseable timestamp: it survives the source-level check but contributes zero
valid rows. -/
def srcBadRows : RawSource :=
  { stem := "east_jan", readable := true, cols := ["timestamp", "kwh", "note"],
    rows := [{ timestamp := none, kwh := some 1, building := "B", month := "M" }] }

/-- **C3, counterexample.**  A run in which zero sources produce valid rows,
yet the Merged Dataset does *not* have exactly the four required columns: the
surviving (but row-less) frame drags its extra `note` column into the output,
because the four-column fallback frame is built only when *no frame at all*
survives the source-level checks. -/
theorem ingest_empty_cx :
    (ingest_data [srcBadRows]).rows = []
      ∧ (ingest_data [srcBadRows]).cols
          = ["timestamp", "kwh", "note", "building", "month"]
      ∧ (ingest_data [srcBadRows]).cols ≠ ["timestamp", "kwh", "building", "month"] := by
  refine ⟨rfl, rfl, ?_⟩
  decide

/-- **C3, amended.**  When *no source survives the source-level checks*
(unreadable, or missing the `timestamp`/`kwh` column) — in particular on an
empty input directory — ingestion returns the empty, well-formed dataset with
exactly the four required columns; and on any empty Merged Dataset the Report
Synthesizer writes exactly the single sentinel line and returns without any
aggregate derivation. -/
theorem ingest_empty_wellformed (sources : List RawSource) (m : BuildingManager)
    (h : ∀ s ∈ sources, normalizeSource s = none) :
    ingest_data sources
        = { cols := ["timestamp", "kwh", "building", "month"], rows := [] }
      ∧ generate_summary (ingest_data sources).rows m
        = ["No data available to generate summary."] := by
  have hf : sources.filterMap normalizeSource = [] :=
    List.filterMap_eq_nil_iff.mpr h
  have h1 : ingest_data sources
      = { cols := ["timestamp", "kwh", "building", "month"], rows := [] } := by
    unfold ingest_data
    rw [hf]
    rfl
  exact ⟨h1, by rw [h1]; rfl⟩

/-- An unreadable source (`pd.read_csv` raises). -/
def srcUnreadable : RawSource :=
  { stem := "x", readable := false, cols := ["timestamp", "kwh"], rows := [] }

theorem ingest_empty_wellformed_witness :
    (∀ s ∈ [srcUnreadable], normalizeSource s = none)
      ∧ (ingest_data [srcUnreadable]
          = { cols := ["timestamp", "kwh", "building", "month"], rows := [] }
        ∧ generate_summary (ingest_data [srcUnreadable]).rows (BuildingManager.mk [])
          = ["No data available to generate summary."]) :=
  ⟨by decide, ingest_empty_wellformed [srcUnreadable] (BuildingManager.mk []) (by decide)⟩

/-! ## Metadata inference (C4) -/

lemma splitCharList_no_underscore :
    ∀ cs : List Char, '_' ∉ cs → splitCharList cs = [cs] := by
  intro cs
  induction cs with
  | nil => intro _; rfl
  | cons c cs ih =>
    intro h
    have hc : ¬ c = '_' := fun hc => h (hc ▸ List.mem_cons_self c cs)
    have hcs : '_' ∉ cs := fun hm => h (List.mem_cons_of_mem c hm)
    simp [splitCharList, hc, ih hcs]

lemma splitUnderscore_no_underscore (s : String) (h : '_' ∉ s.data) :
    splitUnderscore s = [s] := by
  unfold splitUnderscore
  rw [splitCharList_no_underscore s.data h]
  rfl

/-- **C4, amended.**  When the source lacks a `building` column the normalizer
sets every row's building to the first `_`-segment of the identifier,
capitalized; when it lacks a `month` column, the period label becomes the last
`_`-segment, verbatim.  For an identifier with no `_`, the building is the
whole identifier capitalized while the period label is the whole identifier
*verbatim* (not capitalized). -/
theorem normalizer_inference (s : RawSource) (fr : DataFrame)
    (hb : "building" ∉ s.cols) (hm : "month" ∉ s.cols)
    (hn : normalizeSource s = some fr) :
    (∀ r ∈ fr.rows,
        r.building = inferredBuilding s.stem ∧ r.month = inferredMonth s.stem)
      ∧ ('_' ∉ s.stem.data →
          inferredBuilding s.stem = pyCapitalize s.stem
            ∧ inferredMonth s.stem = s.stem) := by
  constructor
  · intro r hr
    unfold normalizeSource at hn
    split_ifs at hn with h1 h2
    injection hn with h'
    subst h'
    have hr' : r ∈ normRows s := hr
    unfold normRows at hr'
    rcases List.mem_filterMap.mp hr' with ⟨a, _, hfa⟩
    rcases hta : a.timestamp with _ | t <;> rcases hka : a.kwh with _ | k <;>
      rw [hta, hka] at hfa
    · cases hfa
    · cases hfa
    · cases hfa
    · injection hfa with h''
      subst h''
      exact ⟨by rw [rowBuilding, if_neg hb], by rw [rowMonth, if_neg hm]⟩
  · intro hu
    rw [inferredBuilding, inferredMonth, splitUnderscore_no_underscore s.stem hu]
    exact ⟨rfl, rfl⟩

/-- A readable source whose identifier `east` contains no underscore and which
lacks both the `building` and the `month` column. -/
def srcEast : RawSource :=
  { stem := "east", readable := true, cols := ["timestamp", "kwh"],
    rows := [{ timestamp := some 0, kwh := some 10, building := "", month := "" }] }

/-- **C4, counterexample.**  For the no-underscore identifier `east` the
normalizer yields building `"East"` but period label `"east"` — the period
label is *not* the capitalized identifier, refuting the claim's third clause. -/
theorem normalizer_inference_cx :
    ('_' ∉ ("east" : String).data)
      ∧ (ingest_data [srcEast]).rows.map (fun r => r.building) = ["East"]
      ∧ (ingest_data [srcEast]).rows.map (fun r => r.month) = ["east"]
      ∧ ("east" : String) ≠ pyCapitalize "east" := by
  refine ⟨by decide, rfl, rfl, by decide⟩

/-- The frame `normalizeSource` produces from `srcEast`. -/
def frEast : DataFrame :=
  { cols := ["timestamp", "kwh", "building", "month"],
    rows := [{ timestamp := 0, kwh := 10, building := "East", month := "east" }] }

theorem normalizer_inference_witness :
    ("building" ∉ srcEast.cols ∧ "month" ∉ srcEast.cols
        ∧ normalizeSource srcEast = some frEast)
      ∧ ((∀ r ∈ frEast.rows,
            r.building = inferredBuilding srcEast.stem
              ∧ r.month = inferredMonth srcEast.stem)
          ∧ ('_' ∉ srcEast.stem.data →
              inferredBuilding srcEast.stem = pyCapitalize srcEast.stem
                ∧ inferredMonth srcEast.stem = srcEast.stem)) :=
  ⟨by decide,
    normalizer_inference srcEast frEast (by decide) (by decide) (by decide)⟩

/-! ## Trend classification (C6) -/

/-- **C6.**  On a non-empty Merged Dataset, the daily-trend line of the
narrative reads `increasing` iff the last daily total strictly exceeds the
first (so equal first and last totals give `decreasing or stable`), and the
weekly-trend line obeys the same rule over the weekly kwh sums. -/
theorem report_trend_rule (df : List Row) (m : BuildingManager) (h : df ≠ []) :
    ((generate_summary df m)[3]? = some "Daily trend: increasing"
        ↔ lastDailyTotal df > firstDailyTotal df)
      ∧ ((generate_summary df m)[3]? = some "Daily trend: decreasing or stable"
        ↔ ¬ lastDailyTotal df > firstDailyTotal df)
      ∧ ((generate_summary df m)[4]? = some "Weekly trend: increasing"
        ↔ lastWeeklySum df > firstWeeklySum df)
      ∧ ((generate_summary df m)[4]? = some "Weekly trend: decreasing or stable"
        ↔ ¬ lastWeeklySum df > firstWeeklySum df) := by
  obtain ⟨r, rs, rfl⟩ : ∃ r rs, df = r :: rs := by
    cases df with
    | nil => exact absurd rfl h
    | cons r rs => exact ⟨r, rs, rfl⟩
  have h3 : (generate_summary (r :: rs) m)[3]?
      = some ("Daily trend: " ++ daily_trend (r :: rs)) := rfl
  have h4 : (generate_summary (r :: rs) m)[4]?
      = some ("Weekly trend: " ++ weekly_trend (r :: rs)) := rfl
  rw [h3, h4]
  refine ⟨?_, ?_, ?_, ?_⟩
  · by_cases hd : lastDailyTotal (r :: rs) > firstDailyTotal (r :: rs)
    · unfold daily_trend; rw [if_pos hd]; exact iff_of_true rfl hd
    · unfold daily_trend; rw [if_neg hd]; exact iff_of_false (by decide) hd
  · by_cases hd : lastDailyTotal (r :: rs) > firstDailyTotal (r :: rs)
    · unfold daily_trend; rw [if_pos hd]
      exact iff_of_false (by decide) (not_not_intro hd)
    · unfold daily_trend; rw [if_neg hd]; exact iff_of_true rfl hd
  · by_cases hw : lastWeeklySum (r :: rs) > firstWeeklySum (r :: rs)
    · unfold weekly_trend; rw [if_pos hw]; exact iff_of_true rfl hw
    · unfold weekly_trend; rw [if_neg hw]; exact iff_of_false (by decide) hw
  · by_cases hw : lastWeeklySum (r :: rs) > firstWeeklySum (r :: rs)
    · unfold weekly_trend; rw [if_pos hw]
      exact iff_of_false (by decide) (not_not_intro hw)
    · unfold weekly_trend; rw [if_neg hw]; exact iff_of_true rfl hw

/-- A two-row dataset on consecutive days with rising consumption. -/
def dfW : List Row :=
  [{ timestamp := 0, kwh := 1, building := "A", month := "m" },
   { timestamp := 1440, kwh := 2, building := "A", month := "m" }]

theorem report_trend_rule_witness :
    (dfW ≠ [])
      ∧ ((generate_summary dfW (BuildingManager.mk []))[3]?
            = some "Daily trend: increasing"
          ↔ lastDailyTotal dfW > firstDailyTotal dfW) :=
  ⟨by decide, (report_trend_rule dfW (BuildingManager.mk []) (by decide)).1⟩

/-! ## Highest-consuming building (C7) -/

lemma pyMax_spec (l : List Building) (a : Building) :
    ∃ l1 l2, a :: l = l1 ++ pyMax a l :: l2
      ∧ (∀ c ∈ l1,
          c.calculate_total_consumption < (pyMax a l).calculate_total_consumption)
      ∧ (∀ c ∈ l2,
          c.calculate_total_consumption ≤ (pyMax a l).calculate_total_consumption) := by
  induction l generalizing a with
  | nil => exact ⟨[], [], rfl, by simp, by simp⟩
  | cons c l ih =>
    have hstep : pyMax a (c :: l)
        = pyMax (if a.calculate_total_consumption < c.calculate_total_consumption
                 then c else a) l := rfl
    by_cases hc : a.calculate_total_consumption < c.calculate_total_consumption
    · rw [hstep, if_pos hc]
      rcases ih c with ⟨l1, l2, hsplit, hl1, hl2⟩
      have hcle : c.calculate_total_consumption
          ≤ (pyMax c l).calculate_total_consumption := by
        rcases l1 with _ | ⟨x, t⟩
        · rw [List.nil_append] at hsplit
          injection hsplit with e1 _
          rw [← e1]
        · rw [List.cons_append] at hsplit
          injection hsplit with e1 _
          have hx := hl1 x (List.mem_cons_self x t)
          rw [← e1] at hx
          exact le_of_lt hx
      refine ⟨a :: l1, l2, ?_, ?_, hl2⟩
      · rw [List.cons_append, ← hsplit]
      · intro x hx
        rcases List.mem_cons.mp hx with rfl | hx
        · exact lt_of_lt_of_le hc hcle
        · exact hl1 x hx
    · rw [hstep, if_neg hc]
      rcases ih a with ⟨l1, l2, hsplit, hl1, hl2⟩
      rcases l1 with _ | ⟨x, t⟩
      · rw [List.nil_append] at hsplit
        injection hsplit with e1 e2
        refine ⟨[], c :: l2, ?_, by simp, ?_⟩
        · rw [List.nil_append, ← e1, ← e2]
        · intro y hy
          rcases List.mem_cons.mp hy with rfl | hy
          · rw [← e1]; exact le_of_not_lt hc
          · exact hl2 y hy
      · rw [List.cons_append] at hsplit
        injection hsplit with e1 e2
        have hax : a.calculate_total_consumption
            < (pyMax a l).calculate_total_consumption := by
          have hx := hl1 x (List.mem_cons_self x t)
          rw [← e1] at hx
          exact hx
        refine ⟨a :: c :: t, l2, ?_, ?_, hl2⟩
        · rw [List.cons_append, List.cons_append, ← e2]
        · intro y hy
          rcases List.mem_cons.mp hy with rfl | hy
          · exact hax
          rcases List.mem_cons.mp hy with rfl | hy
          · exact lt_of_le_of_lt (le_of_not_lt hc) hax
          · exact hl1 y (List.mem_cons_of_mem x hy)

/-- **C7.**  `highest_consuming_building()` is `None` exactly on an empty
manager; otherwise it returns a registered building of maximal total
consumption, and among ties the *first* one in the manager's iteration
(insertion) order: everything registered before it is strictly smaller,
everything after it no larger. -/
theorem highest_consuming_building_spec (m : BuildingManager) :
    (m.highest_consuming_building = none ↔ m.buildings = [])
      ∧ ∀ b, m.highest_consuming_building = some b →
          ∃ l1 l2, m.buildings = l1 ++ b :: l2
            ∧ (∀ c ∈ l1,
                c.calculate_total_consumption < b.calculate_total_consumption)
            ∧ (∀ c ∈ l2,
                c.calculate_total_consumption ≤ b.calculate_total_consumption) := by
  obtain ⟨bs⟩ := m
  cases bs with
  | nil =>
    refine ⟨by simp [BuildingManager.highest_consuming_building], ?_⟩
    intro b hb
    simp [BuildingManager.highest_consuming_building] at hb
  | cons b0 rest =>
    refine ⟨by simp [BuildingManager.highest_consuming_building], ?_⟩
    intro b hb
    simp only [BuildingManager.highest_consuming_building, Option.some.injEq] at hb
    subst hb
    exact pyMax_spec rest b0

/-- Two buildings with equal totals: `max` keeps the first one. -/
def mgrTie : BuildingManager :=
  BuildingManager.mk
    [Building.mk "A" [MeterReading.mk 0 5], Building.mk "B" [MeterReading.mk 0 5]]

theorem highest_consuming_building_witness :
    (mgrTie.highest_consuming_building
        = some (Building.mk "A" [MeterReading.mk 0 5]))
      ∧ ∃ l1 l2, mgrTie.buildings
            = l1 ++ Building.mk "A" [MeterReading.mk 0 5] :: l2
          ∧ (∀ c ∈ l1, c.calculate_total_consumption
              < (Building.mk "A" [MeterReading.mk 0 5]).calculate_total_consumption)
          ∧ (∀ c ∈ l2, c.calculate_total_consumption
              ≤ (Building.mk "A" [MeterReading.mk 0 5]).calculate_total_consumption) := by
  have hb : mgrTie.highest_consuming_building
      = some (Building.mk "A" [MeterReading.mk 0 5]) := by
    simp [mgrTie, BuildingManager.highest_consuming_building, pyMax,
      Building.calculate_total_consumption]
  exact ⟨hb, (highest_consuming_building_spec mgrTie).2 _ hb⟩

/-! ## Building Summary (C8) -/

/-- **C8.**  The Building Summary has one row per distinct building name (no
duplicates, and a row for exactly the names occurring in the dataset), and
each row's `total` is the sum of `kwh` over exactly the rows of that
building. -/
theorem building_summary_spec (df : List Row) :
    ((building_wise_summary df).map (fun row => row.building)).Nodup
      ∧ (∀ b, (b ∈ (building_wise_summary df).map (fun row => row.building))
            ↔ b ∈ df.map (fun r => r.building))
      ∧ ∀ row ∈ building_wise_summary df,
          row.total = ((df.filter (fun r => r.building = row.building)).map
            (fun r => r.kwh)).sum := by
  have hmap : (building_wise_summary df).map (fun row => row.building)
      = groupKeys df := by
    unfold building_wise_summary
    rw [List.map_map]
    exact List.map_id'' (fun _ => rfl) _
  have hperm := List.perm_insertionSort (fun a b : String => a ≤ b)
    (df.map (fun r => r.building)).dedup
  refine ⟨?_, ?_, ?_⟩
  · rw [hmap]
    unfold groupKeys
    exact hperm.nodup_iff.mpr (List.nodup_dedup _)
  · intro b
    rw [hmap]
    unfold groupKeys
    rw [hperm.mem_iff, List.mem_dedup]
  · intro row hrow
    unfold building_wise_summary at hrow
    rcases List.mem_map.mp hrow with ⟨b, _, rfl⟩
    rfl

theorem building_summary_spec_witness :
    (SummaryRow.mk "A" ((3 : Rat)/2) 1 2 3 ∈ building_wise_summary dfW)
      ∧ (SummaryRow.mk "A" ((3 : Rat)/2) 1 2 3).total
          = ((dfW.filter
              (fun r => r.building = (SummaryRow.mk "A" ((3 : Rat)/2) 1 2 3).building)).map
            (fun r => r.kwh)).sum := by
  have hval : building_wise_summary dfW = [SummaryRow.mk "A" ((3 : Rat)/2) 1 2 3] := by
    have hk : groupKeys dfW = ["A"] := rfl
    unfold building_wise_summary
    rw [hk]
    norm_num [dfW, listMin, listMax]
  have hmem : SummaryRow.mk "A" ((3 : Rat)/2) 1 2 3 ∈ building_wise_summary dfW := by
    rw [hval]
    exact List.mem_cons_self _ _
  exact ⟨hmem, (building_summary_spec dfW).2.2 _ hmem⟩

/-! ## Idempotence and frame conditions (C9, C10) -/

/-- **C9.**  Each Aggregation Engine derivation, called twice in sequence on
the same dataset — the second call receiving the dataset exactly as the first
call left it — produces identical output tables.  (The content of the claim
is that the first call leaves no state behind: each function works on a copy
of its argument and touches nothing else.) -/
theorem aggregation_idempotent (df : List Row) :
    (calculate_daily_totals_run ((calculate_daily_totals_run df).2)).1
        = (calculate_daily_totals_run df).1
      ∧ (calculate_weekly_aggregates_run ((calculate_weekly_aggregates_run df).2)).1
        = (calculate_weekly_aggregates_run df).1
      ∧ (building_wise_summary_run ((building_wise_summary_run df).2)).1
        = (building_wise_summary_run df).1 :=
  ⟨rfl, rfl, rfl⟩

/-- **C10.**  `calculate_daily_totals` and `calculate_weekly_aggregates`
leave the caller's frame unchanged: both rebind `df = df.copy()` on entry, so
their writes (the timestamp coercion, the index mutation) hit only the copy. -/
theorem aggregation_preserves_input (df : List Row) :
    (calculate_daily_totals_run df).2 = df
      ∧ (calculate_weekly_aggregates_run df).2 = df :=
  ⟨rfl, rfl⟩

end Capstone
